import Mathlib

/-!
Verification of the expense-analyzer repository (Ivaskiv/expense-analyzer).

This file gives a shallow embedding, in Lean, of the self-contained logic of
the repository: the regex-based expense extractor `analyzeExpense`
(src/index.js lines 579-629, duplicated at src/unnamed/part_005 lines
362-412), the confirmation workflow handlers (`bot.action(/confirm_/)`, the
`bot.on('text')` handler, the pending-amount middleware — which the
registration order makes unreachable), the in-memory registries (`noteStorage`,
`analysisResults`), the webhook route handlers of src/index.js and
src/unnamed/part_003, and the transcription adapter `transcribeAudio`
(src/index.js lines 733-839).

Conventions of the embedding:
- JS strings are Lean `String`s; character-level work uses `List Char`.
- JS numbers produced by `parseFloat` on short decimal literals are modelled
  as rationals; the model covers finite decimal literals with optional sign,
  fraction and exponent (not the JS `Infinity` literal).
- The two insertion-ordered key/value stores (`noteStorage`, a plain JS
  object keyed by `Date.now().toString()`, and `analysisResults`, a JS `Map`
  keyed by `resultCounter.toString()`) are modelled as insertion-ordered
  association lists with `Nat` keys: both JS stores are keyed by the decimal
  string of a number, an injective encoding, and both preserve insertion
  order, update in place, and delete by key, exactly as the list operations
  `mapGet`, `mapSet`, `mapDelete` below do.
- Effects of the Telegram transport (sending messages, editing keyboards)
  are abstracted into outcome values; network backends (Gemini, Whisper,
  Google Sheets) are oracles passed as explicit parameters, since each call
  site wraps them so that only the returned value matters.
-/

namespace ExpenseAnalyzer

/-! ### Characters and lowercasing

JS `String.prototype.toLowerCase` on the alphabets appearing in this bot
(Latin, core Cyrillic U+0400-U+042F, and the Ukrainian letter U+0490). -/

/-- Model of JS `toLowerCase` for one character, restricted to the Latin and
Cyrillic (incl. Ukrainian І, Ї, Є, Ґ) letters that occur in the bot's
patterns and inputs; all other characters are left unchanged. -/
def jsToLower (c : Char) : Char :=
  if 'A' ≤ c ∧ c ≤ 'Z' then Char.ofNat (c.toNat + 32)
  else if 0x410 ≤ c.toNat ∧ c.toNat ≤ 0x42F then Char.ofNat (c.toNat + 0x20)
  else if 0x400 ≤ c.toNat ∧ c.toNat ≤ 0x40F then Char.ofNat (c.toNat + 0x50)
  else if c.toNat = 0x490 then Char.ofNat 0x491
  else c

/-- The character list of `text.toLowerCase()`. -/
def lowerStr (s : String) : List Char := s.data.map jsToLower

/-! ### Digits and decimal parsing -/

/-- Numeric value of a digit string (most significant digit first). -/
def digitsToNat (ds : List Char) : Nat :=
  ds.foldl (fun n c => 10 * n + (c.toNat - 48)) 0

/-- Rational value of an integer digit part plus a fraction digit part:
the number `ip + fp / 10 ^ fp.length`, written over a common denominator so
that it evaluates using only core rational primitives. -/
def decToRat (ip fp : List Char) : ℚ :=
  mkRat (digitsToNat ip * 10 ^ fp.length + digitsToNat fp) (10 ^ fp.length)

/-- Replace the first occurrence of character `a` by `b`: JS
`String.prototype.replace(a, b)` with single-character string arguments. -/
def replaceFirst : List Char → Char → Char → List Char
  | [], _, _ => []
  | c :: cs, a, b => if c = a then b :: cs else c :: replaceFirst cs a b

/-- Characters treated as whitespace by JS `parseFloat`: the ECMAScript
WhiteSpace and LineTerminator sets, including NBSP, the Unicode space
separators and the BOM. -/
def isJsSpace (c : Char) : Bool :=
  c = ' ' || c = '\t' || c = '\n' || c = '\r' ||
  c = Char.ofNat 11 || c = Char.ofNat 12 || c = Char.ofNat 0xA0 ||
  c = Char.ofNat 0x1680 || (0x2000 ≤ c.toNat ∧ c.toNat ≤ 0x200A) ||
  c = Char.ofNat 0x2028 || c = Char.ofNat 0x2029 || c = Char.ofNat 0x202F ||
  c = Char.ofNat 0x205F || c = Char.ofNat 0x3000 || c = Char.ofNat 0xFEFF

/-- Optional exponent value at the given suffix: JS `[eE][+-]?digits`.
Returns `none` when no well-formed exponent starts here. -/
def expVal : List Char → Option Int
  | '-' :: t =>
    let ds := t.takeWhile Char.isDigit
    if ds.isEmpty then none else some (-(digitsToNat ds : Int))
  | '+' :: t =>
    let ds := t.takeWhile Char.isDigit
    if ds.isEmpty then none else some (digitsToNat ds : Int)
  | t =>
    let ds := t.takeWhile Char.isDigit
    if ds.isEmpty then none else some (digitsToNat ds : Int)

/-- Scale a rational by ten to the given signed power (the effect of a
decimal exponent), written with core rational primitives only. -/
def applyExp (q : ℚ) : Option Int → ℚ
  | none => q
  | some (Int.ofNat n) => q * ((10 ^ n : Nat) : ℚ)
  | some (Int.negSucc n) => q * mkRat 1 (10 ^ (n + 1))

/-- Unsigned decimal literal at the head of the input: digits, an optional
fraction, and an optional exponent, as accepted by JS `parseFloat`.
`none` models `NaN` (no digit could be consumed). -/
def parseDec (cs : List Char) : Option ℚ :=
  let ip := cs.takeWhile Char.isDigit
  let r1 := cs.dropWhile Char.isDigit
  let fp := match r1 with
    | '.' :: t => t.takeWhile Char.isDigit
    | _ => []
  let r2 := match r1 with
    | '.' :: t => t.dropWhile Char.isDigit
    | _ => r1
  if ip.isEmpty ∧ fp.isEmpty then none
  else
    let base := decToRat ip fp
    match r2 with
    | 'e' :: t => some (applyExp base (expVal t))
    | 'E' :: t => some (applyExp base (expVal t))
    | _ => some base

/-- Model of JS `parseFloat`: skip leading whitespace, optional sign, then
the longest valid decimal prefix; `none` models `NaN`. The model's domain
is finite decimal literals: the JS `Infinity` literal, which `parseFloat`
also accepts and which no rational can represent, is outside it. -/
def jsParseFloat (s : String) : Option ℚ :=
  match s.data.dropWhile isJsSpace with
  | '-' :: cs => (parseDec cs).map (fun q => -q)
  | '+' :: cs => parseDec cs
  | cs => parseDec cs

/-! ### The amount regex

`/(\d+(?:[.,]\d+)?)\s*(грн|гривень|грн\.|₴|uah|)/gi` from `analyzeExpense`.
Because the currency alternation ends with an empty alternative, the regex
matches exactly when the text contains a digit, the leftmost match starts at
the leftmost digit, and capture group 1 is the maximal digit run there,
greedily extended by one `[.,]` separator plus a following digit run. The
`else` branch's `/(\d+(?:[.,]\d+)?)/` yields the very same group, so a
single token extractor models both branches. -/

/-- Capture group 1 of the amount regex at a position whose head is a digit:
maximal digits, then optionally one `.` or `,` followed by at least one
digit (taking the maximal following digit run). -/
def numTokenStr (cs : List Char) : List Char :=
  let ds := cs.takeWhile Char.isDigit
  let rest := cs.dropWhile Char.isDigit
  match rest with
  | s :: tail =>
    match tail with
    | d :: _ =>
      if (s = '.' || s = ',') && d.isDigit then ds ++ s :: tail.takeWhile Char.isDigit
      else ds
    | [] => ds
  | [] => ds

/-- Leftmost match of the numeric-token regex: scan to the first digit and
take the token there; `none` when the text contains no digit. -/
def findNumToken : List Char → Option (List Char)
  | [] => none
  | c :: cs => if c.isDigit then some (numTokenStr (c :: cs)) else findNumToken cs

/-! ### Category patterns

The ordered `categoryPatterns` table of `analyzeExpense`. Each regex there
is an alternation of plain words in which some positions are two- or
three-letter character classes, with no quantifiers or anchors, so a pattern
is modelled as a list of alternatives, an alternative as a list of
character classes, and `pattern.test(lowerText)` as "some alternative
occurs as a contiguous run in the lowercased text". -/

/-- One regex alternative: a concatenation of single-character classes. -/
abbrev RegexAlt := List (List Char)

/-- A literal word as an alternative (each class is one character). -/
def lit (s : String) : RegexAlt := s.data.map (fun c => [c])

/-- A bracket character class such as `[ау]`. -/
def cls (s : String) : List Char := s.data

/-- Does the alternative match starting exactly at the head of `cs`? -/
def altMatchesAt : RegexAlt → List Char → Bool
  | [], _ => true
  | _ :: _, [] => false
  | k :: w, c :: cs => k.contains c && altMatchesAt w cs

/-- Does the alternative occur anywhere in `cs`? -/
def altOccurs (w : RegexAlt) : List Char → Bool
  | [] => altMatchesAt w []
  | c :: cs => altMatchesAt w (c :: cs) || altOccurs w cs

/-- `pattern.test(cs)` for an alternation of alternatives. -/
def patTest (p : List RegexAlt) (cs : List Char) : Bool :=
  p.any (fun w => altOccurs w cs)

/-- The apostrophe character (U+0027), as it appears inside the category
name written in the source as a quoted string with an escape. -/
def apos : Char := Char.ofNat 39

/-- The ordered keyword table of `analyzeExpense` (src/index.js lines
605-615): entry order is JS `Object.entries` insertion order, and each
pattern transcribes the corresponding regex literal. -/
def categoryPatterns : List (String × List RegexAlt) :=
  [ ("продукти",
      [lit "прод" ++ [cls "ау"] ++ lit "кт", lit "їж" ++ [cls "аіу"], lit "хліб",
       lit "молоко", lit "овоч", lit "фрукт", lit "магазин", lit "супермаркет",
       lit "маркет"]),
    ("кафе",
      [lit "каф" ++ [cls "еє"], lit "ресторан", lit "їдальн", lit "обід",
       lit "вечер" ++ [cls "яю"], lit "снідан" ++ [cls "ок"],
       lit "піц" ++ [cls "ау"], lit "суші", lit "фастфуд"]),
    ("комунальні послуги",
      [lit "комунал", lit "світло", lit "газ", lit "вод" ++ [cls "аи"],
       lit "опален", lit "електро", lit "інтернет", lit "телефон"]),
    ("спорт",
      [lit "спорт", lit "трену", lit "фітнес", lit "абонемент", lit "зал",
       lit "басейн", lit "йога"]),
    ("канцтовари",
      [lit "зошит", lit "ручк", lit "олівц", lit "папір", lit "канц",
       lit "книг", lit "канцеляр"]),
    ("покупки",
      [lit "одяг", lit "взутт", lit "сороч", lit "магазин", lit "купив",
       lit "купил", lit "придба", lit "шопінг", lit "шоппінг"]),
    ("транспорт",
      [lit "автобус", lit "метро", lit "таксі", lit "поїзд", lit "квиток",
       lit "проїзд", lit "бензин", lit "паливо"]),
    ("розваги",
      [lit "кіно", lit "театр", lit "концерт", lit "розваг", lit "вистав",
       lit "парк", lit "атракціон"]),
    (("здоров".push apos) ++ "я",
      [lit "лік", lit "аптек", lit "медиц", lit "лікар", lit "стоматолог",
       lit "терапевт", lit "здоров"]) ]

/-- The category loop of `analyzeExpense`: `category` starts as the default
and the first entry whose pattern tests true wins (the loop breaks). -/
def firstCategory : List (String × List RegexAlt) → List Char → String
  | [], _ => "інші"
  | (name, p) :: rest, cs => if patTest p cs then name else firstCategory rest cs

/-! ### The regex-based extractor -/

/-- Result object of the regex extractor: `{ amount, category }`. -/
structure ExpenseResult where
  amount : ℚ
  category : String
deriving DecidableEq

instance {ε α : Type} [DecidableEq ε] [DecidableEq α] : DecidableEq (Except ε α) := fun a b =>
  match a, b with
  | Except.error x, Except.error y =>
    if h : x = y then Decidable.isTrue (by rw [h]) else Decidable.isFalse (by simp [h])
  | Except.ok x, Except.ok y =>
    if h : x = y then Decidable.isTrue (by rw [h]) else Decidable.isFalse (by simp [h])
  | Except.error _, Except.ok _ => Decidable.isFalse (by simp)
  | Except.ok _, Except.error _ => Decidable.isFalse (by simp)

/-- The regex-based extractor `analyzeExpense` (src/index.js lines 579-629,
duplicated at src/unnamed/part_005 lines 362-412). JS `!text` is true on a
string exactly when it is empty, so an empty input takes the error return;
`amount` is initialised to `0` and only overwritten when one of the two
numeric regexes matches; the category is the first matching entry of
`categoryPatterns` against the lowercased text, defaulting to the literal
default of the source. -/
def analyzeExpense (text : String) : Except String ExpenseResult :=
  if text = "" then Except.error "Text for analysis is missing or incorrect"
  else
    let amount : ℚ :=
      match findNumToken text.data with
      | some tok => (jsParseFloat (String.mk (replaceFirst tok ',' '.'))).getD 0
      | none => 0
    Except.ok { amount := amount, category := firstCategory categoryPatterns (lowerStr text) }

/-! ### Insertion-ordered key/value stores

`noteStorage` (a plain JS object) and `analysisResults` (a JS `Map`) both
preserve insertion order, update an existing key in place, and delete by
key. Keys are decimal strings of numbers (`Date.now().toString()`,
`resultCounter.toString()`), modelled by their `Nat` values. -/

/-- Lookup by key, JS `obj[k]` and `map.get(k)`. -/
def mapGet {α : Type} : List (Nat × α) → Nat → Option α
  | [], _ => none
  | e :: rest, k => if e.1 = k then some e.2 else mapGet rest k

/-- Insertion/update, JS `obj[k] = v` and `map.set(k, v)`: an existing key
keeps its position, a new key is appended at the end. -/
def mapSet {α : Type} : List (Nat × α) → Nat → α → List (Nat × α)
  | [], k, v => [(k, v)]
  | e :: rest, k, v => if e.1 = k then (k, v) :: rest else e :: mapSet rest k v

/-- Deletion by key, JS `delete obj[k]` and `map.delete(k)`. -/
def mapDelete {α : Type} : List (Nat × α) → Nat → List (Nat × α)
  | [], _ => []
  | e :: rest, k => if e.1 = k then mapDelete rest k else e :: mapDelete rest k

/-- JS `obj[k]` used in a truthiness test: `!note` is true both when the
key is absent and when the stored string is empty. -/
def mapGetTruthy (m : List (Nat × String)) (k : Nat) : Option String :=
  match mapGet m k with
  | some v => if v = "" then none else some v
  | none => none

/-- State effect of `sendExpenseConfirmation` on the session registry
(src/index.js lines 701-726): the note is stored under a fresh id
(`Date.now().toString()`). No eviction of any kind is performed. -/
def sendExpenseConfirmation (store : List (Nat × String)) (freshId : Nat) (note : String) :
    List (Nat × String) :=
  mapSet store freshId note

/-- Insertion into the `analysisResults` registry as performed by
`processWebhookData` (src/index.js lines 274-280): `set`, then, when the
size exceeds 1000, delete the entry with the oldest key
(`analysisResults.keys().next().value` is the first key in insertion
order). -/
def resultsInsert {α : Type} (m : List (Nat × α)) (k : Nat) (v : α) : List (Nat × α) :=
  let m2 := mapSet m k v
  if 1000 < m2.length then
    match m2 with
    | [] => []
    | e :: _ => mapDelete m2 e.1
  else m2

/-- Folding `n` fresh insertions (session ids `0, 1, ...`) into an empty
session registry, as repeated `sendExpenseConfirmation` calls do. -/
def sessionInsertSeq (n : Nat) : List (Nat × String) :=
  (List.range n).foldl (fun m i => sendExpenseConfirmation m i "note") []

/-! ### The confirmation handler

`bot.action(/confirm_(.+)_(.+)_(.+)/)` (src/index.js lines 964-992,
duplicated at src/unnamed/part_005 lines 658-686). The handler looks the
note up by the id embedded in the callback data; a falsy note produces the
"could not find expense data" reply and returns; otherwise
`addExpenseToSheet` is awaited (it returns a boolean and never throws:
every exception inside it is caught and converted to `false`), and only a
`true` result deletes the stored note. The boolean result of the
persistence adapter is a parameter of the model; `persistCalls` counts how
many times the adapter was invoked during the handler run. -/

/-- Observable outcome of one run of the confirm handler. -/
inductive ConfirmOutcome
  | notFound
  | saved
  | saveFailed
deriving DecidableEq

/-- Result of one run of the confirm handler: the reply sent, the session
registry afterwards, and how often the persistence adapter was invoked. -/
structure ConfirmResult where
  outcome : ConfirmOutcome
  store : List (Nat × String)
  persistCalls : Nat
deriving DecidableEq

/-- The confirm handler. -/
def confirmAction (store : List (Nat × String)) (noteId : Nat) (persistOk : Bool) :
    ConfirmResult :=
  match mapGetTruthy store noteId with
  | none => { outcome := ConfirmOutcome.notFound, store := store, persistCalls := 0 }
  | some _ =>
    if persistOk then
      { outcome := ConfirmOutcome.saved, store := mapDelete store noteId, persistCalls := 1 }
    else
      { outcome := ConfirmOutcome.saveFailed, store := store, persistCalls := 1 }

/-! ### The pending-amount middleware and the text handler

The `bot.use` middleware (src/index.js lines 1121-1154, duplicated at
src/unnamed/part_005 lines 809-842) is written so that, when
`ctx.session.pendingAmount` is set and the incoming update is a non-bot
text message, it resolves the stored note, validates
`parseFloat(text.replace(',', '.'))`, and either re-prompts in place or
clears the pending slot and re-issues the confirmation with the new
amount. `amountMiddleware` below embeds that body.

At runtime, however, this middleware is dead code: Telegraf dispatches an
update through handlers in registration order, the `bot.on('text')`
handler (index.js line 940, part_005 line 634) is registered before the
`bot.use` call (line 1121 resp. 809), and that handler never calls
`next()` — it returns early on a leading "/" and otherwise replies and
issues a fresh confirmation. So no text message ever reaches the
middleware, and a reply sent while `pendingAmount` is set is processed as
a brand-new expense by `onTextHandler` below (the part_005 copy moreover
never installs `session()`, so there `ctx.session.pendingAmount` would not
even persist between updates). -/

/-- The `ctx.session.pendingAmount` record. -/
structure PendingAmount where
  category : String
  noteId : Nat
deriving DecidableEq

/-- Session-plus-registry state seen by the middleware. -/
structure EditState where
  pending : Option PendingAmount
  store : List (Nat × String)
deriving DecidableEq

/-- Observable outcome of one middleware run. -/
inductive EditOutcome
  | passThrough
  | sessionExpired
  | invalidAmount
  | newConfirmation (amount : ℚ) (category : String) (note : String)
deriving DecidableEq

/-- The body of the `bot.use` middleware (never reached at runtime, see
the section comment). `msg` is the text of the incoming message when there
is one, `fromBot` the sender's bot flag, and `freshId` the id that
`sendExpenseConfirmation` would use for the re-issued confirmation. -/
def amountMiddleware (st : EditState) (msg : Option String) (fromBot : Bool) (freshId : Nat) :
    EditOutcome × EditState :=
  match msg with
  | none => (EditOutcome.passThrough, st)
  | some text =>
    if fromBot then (EditOutcome.passThrough, st)
    else
      match st.pending with
      | none => (EditOutcome.passThrough, st)
      | some pa =>
        match mapGetTruthy st.store pa.noteId with
        | none => (EditOutcome.sessionExpired, { pending := none, store := st.store })
        | some note =>
          match jsParseFloat (String.mk (replaceFirst text.data ',' '.')) with
          | none => (EditOutcome.invalidAmount, st)
          | some q =>
            if q ≤ 0 then (EditOutcome.invalidAmount, st)
            else
              (EditOutcome.newConfirmation q pa.category note,
               { pending := none, store := sendExpenseConfirmation st.store freshId note })

/-- Observable outcome of the `bot.on('text')` handler. -/
inductive TextUpdateOutcome
  | commandSkipped
  | extractionError (msg : String)
  | freshConfirmation (amount : ℚ) (category : String) (note : String)
deriving DecidableEq

/-- The `bot.on('text')` handler (src/index.js lines 940-961, duplicated at
src/unnamed/part_005 lines 634-655) — the code that actually receives
every incoming text message, regardless of `ctx.session.pendingAmount`,
because it precedes the middleware and never calls `next()`. A text
starting with "/" returns early; otherwise the text is analyzed as a fresh
expense and a new confirmation is issued with the text itself as the note,
stored under a fresh id. `ctx.session` is never touched. -/
def onTextHandler (st : EditState) (text : String) (freshId : Nat) :
    TextUpdateOutcome × EditState :=
  if text.data.head? = some '/' then (TextUpdateOutcome.commandSkipped, st)
  else
    match analyzeExpense text with
    | Except.error e => (TextUpdateOutcome.extractionError e, st)
    | Except.ok r =>
      (TextUpdateOutcome.freshConfirmation r.amount r.category text,
       { pending := st.pending, store := sendExpenseConfirmation st.store freshId text })

/-! ### The POST /webhook handlers

Two variants in the repository expose this route over the AI-based
extractor. The extractor is a network call; its awaited outcome is an
explicit parameter: `Except.error` models an exception escaping to the
route's catch block, `Except.ok` the value it returned (the AI extractors
catch their own errors and then return an object whose fields may be
absent, modelled with `Option`). -/

/-- Value returned by an awaited AI `analyzeExpense` call: fields that the
returned object may lack (`amount`, `category`, `error`) are `Option`s. -/
structure GeminiAnalysis where
  amount : Option ℚ
  category : Option String
  error : Option String
deriving DecidableEq

/-- The record built and stored by `processWebhookData` in src/index.js
(lines 261-271): the five documented fields plus `resultId`, `userId` and
`source`. -/
structure IndexAnalysisRecord where
  resultId : Nat
  date : String
  amount : Option ℚ
  category : Option String
  originalText : String
  error : Option String
  userId : Option Nat
  source : Option String
deriving DecidableEq

/-- An HTTP reply of either route: a 200 JSON body of one of the two ok
shapes, a 400, or a 500. -/
inductive WebhookReply
  | okPart003 (date : String) (amount : Option ℚ) (category : Option String)
      (originalText : String) (error : Option String)
  | okIndex (record : IndexAnalysisRecord)
  | badRequest (msg : String)
  | serverError (msg : String)
deriving DecidableEq

/-- HTTP status code of a reply. -/
def replyStatus : WebhookReply → Nat
  | WebhookReply.okPart003 _ _ _ _ _ => 200
  | WebhookReply.okIndex _ => 200
  | WebhookReply.badRequest _ => 400
  | WebhookReply.serverError _ => 500

/-- JS falsiness of the optional `text` field of the request body: absent
or the empty string. -/
def textFalsy : Option String → Bool
  | none => true
  | some t => t = ""

/-- The `POST /webhook` route of src/unnamed/part_003 (lines 119-145): an
explicit 400 when `data.text` is falsy, a 500 from the catch block when the
awaited extractor throws, otherwise a 200 body
`{ date, amount, category, originalText, error }` copied from the
extractor's return value. -/
def webhookPart003 (text : Option String) (outcome : Except String GeminiAnalysis)
    (now : String) : WebhookReply :=
  if textFalsy text then WebhookReply.badRequest "Текст не знайдено у запиті"
  else
    match outcome with
    | Except.error _ => WebhookReply.serverError "Внутрішня помилка сервера"
    | Except.ok a =>
      WebhookReply.okPart003 now a.amount a.category ((text.getD "")) a.error

/-- `processWebhookData` of src/index.js (lines 250-287): throws when
`data.text` is falsy, otherwise builds the analysis record, stores it in
`analysisResults` under the current counter with the size-1000 FIFO
trimming, increments the counter and returns all three. -/
def processWebhookData (text : Option String) (outcome : Except String GeminiAnalysis)
    (now : String) (userId : Option Nat) (counter : Nat)
    (registry : List (Nat × IndexAnalysisRecord)) :
    Except String (IndexAnalysisRecord × List (Nat × IndexAnalysisRecord) × Nat) :=
  if textFalsy text then Except.error "Текст не знайдено у запиті"
  else
    match outcome with
    | Except.error e => Except.error e
    | Except.ok a =>
      let record : IndexAnalysisRecord :=
        { resultId := counter, date := now, amount := a.amount, category := a.category,
          originalText := text.getD "", error := a.error, userId := userId,
          source := some "text" }
      Except.ok (record, resultsInsert registry counter record, counter + 1)

/-- The `POST /webhook` route of src/index.js (lines 381-389): it only
forwards to `processWebhookData` and converts any thrown error — including
the missing-text error — into a 500 reply. -/
def webhookIndex (text : Option String) (outcome : Except String GeminiAnalysis)
    (now : String) (userId : Option Nat) (counter : Nat)
    (registry : List (Nat × IndexAnalysisRecord)) :
    WebhookReply × List (Nat × IndexAnalysisRecord) × Nat :=
  match processWebhookData text outcome now userId counter registry with
  | Except.error _ => (WebhookReply.serverError "Внутрішня помилка сервера", registry, counter)
  | Except.ok (record, registry2, counter2) => (WebhookReply.okIndex record, registry2, counter2)

/-! ### The transcription adapter

`transcribeAudio` of src/index.js (lines 733-839). Size checks happen
before and after conversion; the Whisper call is retried up to 3 times with
a growing delay; the outcomes of the (up to three) calls are the model's
oracle parameter, `none` standing for a thrown error and `some s` for a
returned transcription string (`response_format: "text"`). -/

/-- Sentinel returned when every attempt threw (line 816). -/
def failSentinel : String := "Не вдалося розпізнати аудіо. Спробуйте ще раз."

/-- Fallback used when a successful response is falsy, i.e. empty
(line 821). -/
def emptyFallback : String := "Не вдалося розпізнати аудіо."

/-- Early return for an oversized source file (line 739). -/
def oversizeMsg1 : String := "Файл занадто великий для обробки. Спробуйте коротше аудіо."

/-- Early return for an oversized converted file (line 763). -/
def oversizeMsg2 : String := "Конвертований файл занадто великий для обробки. Спробуйте коротше аудіо."

/-- Filename-keyword placeholder used when every attempt threw and the file
path mentions the keyword (lines 813-815). -/
def testingFallback : String := "витратила 333 грн на продукти"

/-- Does `s` contain `sub` as a contiguous substring
(JS `String.prototype.includes`)? -/
def containsSub (s sub : String) : Bool :=
  altOccurs (lit sub) s.data

/-- The retry loop: up to `retries` attempts are consumed from the oracle,
stopping at the first successful one. Returns the response, if any, and the
number of Whisper invocations made. -/
def whisperLoop : List (Option String) → Nat → Option String × Nat
  | _, 0 => (none, 0)
  | attempts, r + 1 =>
    match attempts with
    | [] => (none, 0)
    | o :: rest =>
      match o with
      | some resp => (some resp, 1)
      | none =>
        let p := whisperLoop rest r
        (p.1, p.2 + 1)

/-- Backoff before the next try after the given number of failures so far:
`(3 - retries) * 2000` milliseconds at the point where `retries` has just
been decremented. -/
def backoffDelay (failuresSoFar : Nat) : Nat := failuresSoFar * 2000

/-- The transcription adapter: returns the reply text (it never throws; its
outer catch returns a placeholder on any unexpected error, and every path
below is a `return`). -/
def transcribeAudio (fileSizeMB wavSizeMB : ℚ) (filePath : String)
    (attempts : List (Option String)) : String :=
  if 20 < fileSizeMB then oversizeMsg1
  else if 20 < wavSizeMB then oversizeMsg2
  else
    match (whisperLoop attempts 3).1 with
    | none => if containsSub filePath "продукт" then testingFallback else failSentinel
    | some resp => if resp = "" then emptyFallback else resp

/-- A concrete full result registry of 1000 entries, used to witness the
eviction behaviour. -/
def demoRegistry : List (Nat × String) := (List.range 1000).map (fun i => (i, "r"))

/-- A concrete awaiting-amount state used to witness the edit-amount flow. -/
def editDemo : EditState :=
  { pending := some { category := "кафе", noteId := 5 }, store := [(5, "Кава 85 грн")] }

/-- A concrete successful extraction outcome used to witness the webhook
contract. -/
def demoAnalysis : GeminiAnalysis :=
  { amount := some 85, category := some "кафе", error := none }

/-! ### Helper lemmas -/

theorem whisperLoop_zero (l : List (Option String)) : whisperLoop l 0 = (none, 0) := by
  cases l <;> rfl

theorem whisperLoop_take : ∀ (r : Nat) (l : List (Option String)),
    whisperLoop l r = whisperLoop (l.take r) r
  | 0, l => by rw [whisperLoop_zero, whisperLoop_zero]
  | r + 1, [] => by simp
  | r + 1, (some resp) :: rest => by simp [whisperLoop]
  | r + 1, none :: rest => by
    simp only [whisperLoop, List.take_succ_cons]
    rw [whisperLoop_take r rest]

theorem whisperLoop_calls_le : ∀ (r : Nat) (l : List (Option String)),
    (whisperLoop l r).2 ≤ r
  | 0, l => by rw [whisperLoop_zero]
  | r + 1, [] => by simp [whisperLoop]
  | r + 1, (some resp) :: rest => by simp [whisperLoop]
  | r + 1, none :: rest => by
    simp only [whisperLoop]
    simpa using Nat.succ_le_succ (whisperLoop_calls_le r rest)

theorem mapGet_cons {α : Type} (e : Nat × α) (rest : List (Nat × α)) (k : Nat) :
    mapGet (e :: rest) k = if e.1 = k then some e.2 else mapGet rest k := by
  obtain ⟨a, b⟩ := e
  rfl

theorem mapSet_cons {α : Type} (e : Nat × α) (rest : List (Nat × α)) (k : Nat) (v : α) :
    mapSet (e :: rest) k v = if e.1 = k then (k, v) :: rest else e :: mapSet rest k v := by
  obtain ⟨a, b⟩ := e
  rfl

theorem mapDelete_cons {α : Type} (e : Nat × α) (rest : List (Nat × α)) (k : Nat) :
    mapDelete (e :: rest) k = if e.1 = k then mapDelete rest k else e :: mapDelete rest k := by
  obtain ⟨a, b⟩ := e
  rfl

theorem findNumToken_eq_none : ∀ {cs : List Char}, (∀ c ∈ cs, c.isDigit = false) →
    findNumToken cs = none
  | [], _ => rfl
  | c :: cs, h => by
    have hc : c.isDigit = false := h c (by simp)
    rw [findNumToken, hc]
    simpa using findNumToken_eq_none (fun x hx => h x (List.mem_cons_of_mem _ hx))

theorem firstCategory_cons (name : String) (pat : List RegexAlt)
    (rest : List (String × List RegexAlt)) (cs : List Char) :
    firstCategory ((name, pat) :: rest) cs =
      if patTest pat cs then name else firstCategory rest cs := rfl

theorem firstCategory_eq_find (l : List (String × List RegexAlt)) (cs : List Char) :
    firstCategory l cs = ((l.find? (fun p => patTest p.2 cs)).map Prod.fst).getD "інші" := by
  induction l with
  | nil => rfl
  | cons p rest ih =>
    obtain ⟨name, pat⟩ := p
    cases hpt : patTest pat cs with
    | true =>
      rw [firstCategory_cons, if_pos hpt, List.find?_cons_of_pos _ (by simpa using hpt)]
      rfl
    | false =>
      rw [firstCategory_cons, if_neg (by simp [hpt]),
        List.find?_cons_of_neg _ (by simpa using hpt)]
      exact ih

theorem firstCategory_default_iff (l : List (String × List RegexAlt)) (cs : List Char)
    (hn : ∀ p ∈ l, p.1 ≠ "інші") :
    (firstCategory l cs = "інші" ↔ ∀ p ∈ l, patTest p.2 cs = false) := by
  induction l with
  | nil => simp [firstCategory]
  | cons p rest ih =>
    obtain ⟨name, pat⟩ := p
    have hname : name ≠ "інші" := hn (name, pat) (by simp)
    have hrest : ∀ p ∈ rest, p.1 ≠ "інші" := fun q hq => hn q (List.mem_cons_of_mem _ hq)
    cases hpt : patTest pat cs with
    | true =>
      rw [firstCategory_cons, if_pos hpt]
      constructor
      · intro h; exact absurd h hname
      · intro h
        have := h (name, pat) (by simp)
        simp only at this
        rw [this] at hpt
        exact absurd hpt (by simp)
    | false =>
      rw [firstCategory_cons, if_neg (by simp [hpt]), ih hrest]
      constructor
      · intro h q hq
        rcases List.mem_cons.mp hq with hq1 | hq2
        · rw [hq1]; exact hpt
        · exact h q hq2
      · intro h q hq
        exact h q (List.mem_cons_of_mem _ hq)

theorem mapGet_eq_none_of_forall {α : Type} :
    ∀ {m : List (Nat × α)} {k : Nat}, (∀ e ∈ m, e.1 ≠ k) → mapGet m k = none
  | [], _, _ => rfl
  | e :: rest, k, h => by
    have he : e.1 ≠ k := h e (by simp)
    rw [mapGet_cons, if_neg he]
    exact mapGet_eq_none_of_forall (fun x hx => h x (List.mem_cons_of_mem _ hx))

theorem mapGet_cons_none {α : Type} {e : Nat × α} {rest : List (Nat × α)} {k : Nat}
    (h : mapGet (e :: rest) k = none) : e.1 ≠ k ∧ mapGet rest k = none := by
  by_cases hek : e.1 = k
  · rw [mapGet_cons, if_pos hek] at h; exact absurd h (by simp)
  · rw [mapGet_cons, if_neg hek] at h; exact ⟨hek, h⟩

theorem mapSet_of_fresh {α : Type} :
    ∀ {m : List (Nat × α)} {k : Nat} (v : α), mapGet m k = none → mapSet m k v = m ++ [(k, v)]
  | [], _, v, _ => rfl
  | e :: rest, k, v, h => by
    obtain ⟨hek, hrest⟩ := mapGet_cons_none h
    rw [mapSet_cons, if_neg hek, mapSet_of_fresh v hrest]
    simp

theorem mapDelete_of_fresh {α : Type} :
    ∀ {m : List (Nat × α)} {k : Nat}, (∀ e ∈ m, e.1 ≠ k) → mapDelete m k = m
  | [], _, _ => rfl
  | e :: rest, k, h => by
    have he : e.1 ≠ k := h e (by simp)
    rw [mapDelete_cons, if_neg he,
      mapDelete_of_fresh (fun x hx => h x (List.mem_cons_of_mem _ hx))]

theorem mapGet_mapDelete_self {α : Type} :
    ∀ (m : List (Nat × α)) (k : Nat), mapGet (mapDelete m k) k = none
  | [], _ => rfl
  | e :: rest, k => by
    by_cases hek : e.1 = k
    · rw [mapDelete_cons, if_pos hek]; exact mapGet_mapDelete_self rest k
    · rw [mapDelete_cons, if_neg hek, mapGet_cons, if_neg hek]
      exact mapGet_mapDelete_self rest k

theorem mapDelete_length_le {α : Type} :
    ∀ (m : List (Nat × α)) (k : Nat), (mapDelete m k).length ≤ m.length
  | [], _ => Nat.le_refl 0
  | e :: rest, k => by
    by_cases hek : e.1 = k
    · rw [mapDelete_cons, if_pos hek]
      exact Nat.le_succ_of_le (mapDelete_length_le rest k)
    · rw [mapDelete_cons, if_neg hek]
      simpa using Nat.succ_le_succ (mapDelete_length_le rest k)

theorem mapSet_length_le {α : Type} :
    ∀ (m : List (Nat × α)) (k : Nat) (v : α), (mapSet m k v).length ≤ m.length + 1
  | [], _, _ => by simp [mapSet]
  | e :: rest, k, v => by
    by_cases hek : e.1 = k
    · rw [mapSet_cons, if_pos hek]; simp
    · rw [mapSet_cons, if_neg hek]
      simpa using Nat.succ_le_succ (mapSet_length_le rest k v)

theorem mapGetTruthy_eq_some {m : List (Nat × String)} {k : Nat} {v : String}
    (h : mapGetTruthy m k = some v) : mapGet m k = some v ∧ v ≠ "" := by
  unfold mapGetTruthy at h
  cases hg : mapGet m k with
  | none => rw [hg] at h; exact absurd h (by simp)
  | some w =>
    rw [hg] at h
    simp only at h
    by_cases hw : w = ""
    · rw [if_pos hw] at h; exact absurd h (by simp)
    · rw [if_neg hw] at h
      obtain rfl : w = v := by simpa using h
      exact ⟨rfl, hw⟩

theorem mapGetTruthy_of_mapGet_none {m : List (Nat × String)} {k : Nat}
    (h : mapGet m k = none) : mapGetTruthy m k = none := by
  unfold mapGetTruthy
  rw [h]

theorem sessionInsertSeq_eq : ∀ n : Nat,
    sessionInsertSeq n = (List.range n).map (fun i => (i, "note"))
  | 0 => rfl
  | n + 1 => by
    unfold sessionInsertSeq
    rw [List.range_succ, List.foldl_append]
    have hprev : (List.range n).foldl (fun m i => sendExpenseConfirmation m i "note") [] =
        (List.range n).map (fun i => (i, "note")) := sessionInsertSeq_eq n
    rw [hprev]
    simp only [List.foldl_cons, List.foldl_nil, sendExpenseConfirmation]
    rw [mapSet_of_fresh _ (mapGet_eq_none_of_forall ?_)]
    · simp
    · intro e he
      simp only [List.mem_map, List.mem_range] at he
      obtain ⟨i, hi, rfl⟩ := he
      exact Nat.ne_of_lt hi

theorem resultsInsert_bounded {α : Type} (m : List (Nat × α)) (k : Nat) (v : α)
    (h : m.length ≤ 1000) : (resultsInsert m k v).length ≤ 1000 := by
  have hle := mapSet_length_le m k v
  simp only [resultsInsert]
  cases hms : mapSet m k v with
  | nil => simp
  | cons e t =>
    rw [hms] at hle
    simp only [List.length_cons] at hle
    by_cases h2 : 1000 < (e :: t).length
    · rw [if_pos h2]
      simp only
      rw [mapDelete_cons, if_pos rfl]
      have h3 : (mapDelete t e.1).length ≤ t.length := mapDelete_length_le t e.1
      omega
    · rw [if_neg h2]
      simp only [List.length_cons] at h2 ⊢
      omega

theorem resultsInsert_evicts_oldest {α : Type} (e : Nat × α) (t : List (Nat × α)) (k : Nat)
    (v : α) (hlen : (e :: t).length = 1000) (hfresh : mapGet (e :: t) k = none)
    (hnodup : ((e :: t).map Prod.fst).Nodup) :
    resultsInsert (e :: t) k v = t ++ [(k, v)] := by
  obtain ⟨hek, _⟩ := mapGet_cons_none hfresh
  have hset : mapSet (e :: t) k v = e :: (t ++ [(k, v)]) := by
    rw [mapSet_of_fresh v hfresh]; simp
  have hnodup2 : e.1 ∉ t.map Prod.fst := by
    simp only [List.map_cons, List.nodup_cons] at hnodup
    exact hnodup.1
  have hlen2 : 1000 < (e :: (t ++ [(k, v)])).length := by
    simp only [List.length_cons, List.length_append, List.length_singleton]
    simp only [List.length_cons] at hlen
    omega
  simp only [resultsInsert, hset]
  rw [if_pos hlen2]
  rw [mapDelete_cons, if_pos rfl]
  apply mapDelete_of_fresh
  intro x hx
  rcases List.mem_append.mp hx with hx1 | hx2
  · intro hxe
    exact hnodup2 (hxe ▸ List.mem_map_of_mem Prod.fst hx1)
  · simp only [List.mem_singleton] at hx2
    rw [hx2]
    exact fun hke => hek hke.symm

/-! ### Claim theorems -/

/-- C1 counterexample: the input has no numeric substring, yet the
extractor returns amount 0 (not null) and a category different from the
default. -/
theorem analyzeExpense_no_number_counterexample :
    analyzeExpense "хліб" = Except.ok { amount := 0, category := "продукти" } ∧
    ("продукти" : String) ≠ "інші" := by
  refine ⟨by decide, by decide⟩

/-- C1 (amended): for every nonempty input containing no digit, the regex
extractor returns amount 0, and the category is the default exactly when no
keyword pattern matches the lowercased text. -/
theorem analyzeExpense_no_number (text : String) (hne : text ≠ "")
    (hnd : ∀ c ∈ text.data, c.isDigit = false) :
    analyzeExpense text =
      Except.ok { amount := 0, category := firstCategory categoryPatterns (lowerStr text) } ∧
    (firstCategory categoryPatterns (lowerStr text) = "інші" ↔
      ∀ p ∈ categoryPatterns, patTest p.2 (lowerStr text) = false) := by
  constructor
  · simp only [analyzeExpense, if_neg hne, findNumToken_eq_none hnd]
  · exact firstCategory_default_iff _ _ (by decide)

/-- C1 witness: the amended statement applied at a concrete no-digit
input. -/
theorem analyzeExpense_no_number_witness :
    ("abc" : String) ≠ "" ∧ (∀ c ∈ "abc".data, c.isDigit = false) ∧
    (analyzeExpense "abc" =
      Except.ok { amount := 0, category := firstCategory categoryPatterns (lowerStr "abc") } ∧
    (firstCategory categoryPatterns (lowerStr "abc") = "інші" ↔
      ∀ p ∈ categoryPatterns, patTest p.2 (lowerStr "abc") = false)) :=
  ⟨by decide, by decide, analyzeExpense_no_number "abc" (by decide) (by decide)⟩

/-- C4 counterexample: the extractor maps this text to the default
category, not to the claimed one. -/
theorem analyzeExpense_kava_85_counterexample :
    analyzeExpense "Кава 85 грн" = Except.ok { amount := 85, category := "інші" } ∧
    ("інші" : String) ≠ "кафе" := by
  refine ⟨by decide, by decide⟩

/-- C4 (amended): the extractor returns amount 85 and category "інші" on
this input (none of the keyword stems, in particular the stem of the cafe
pattern, occurs in the lowercased text). -/
theorem analyzeExpense_kava_85 :
    analyzeExpense "Кава 85 грн" = Except.ok { amount := 85, category := "інші" } := by
  decide

/-- C5: the concrete extraction, the first-match-wins characterisation of
the ordered category table, and the default category when no keyword
matches. -/
theorem analyzeExpense_first_match :
    analyzeExpense "Купив продукти за 250 грн" =
      Except.ok { amount := 250, category := "продукти" } ∧
    (∀ text : String, firstCategory categoryPatterns (lowerStr text) =
      ((categoryPatterns.find? (fun p => patTest p.2 (lowerStr text))).map Prod.fst).getD "інші") ∧
    (∀ text : String, (∀ p ∈ categoryPatterns, patTest p.2 (lowerStr text) = false) →
      ∀ r : ExpenseResult, analyzeExpense text = Except.ok r → r.category = "інші") := by
  refine ⟨by decide, fun text => firstCategory_eq_find _ _, fun text h r hr => ?_⟩
  by_cases hne : text = ""
  · rw [hne] at hr
    exact absurd hr (by simp [analyzeExpense])
  · simp only [analyzeExpense, if_neg hne, Except.ok.injEq] at hr
    rw [← hr]
    exact (firstCategory_default_iff _ _ (by decide)).mpr h

/-- C5 witness: the no-keyword branch applied at a concrete input. -/
theorem analyzeExpense_first_match_witness :
    (∀ p ∈ categoryPatterns, patTest p.2 (lowerStr "776 usd") = false) ∧
    analyzeExpense "776 usd" = Except.ok { amount := 776, category := "інші" } ∧
    ({ amount := 776, category := "інші" } : ExpenseResult).category = "інші" :=
  ⟨by decide, by decide,
   analyzeExpense_first_match.2.2 "776 usd" (by decide) _ (by decide)⟩

/-- C9: the regex extractor is a pure function of its input (it re-creates
its regexes on every call, so no state is carried over), hence two calls on
the identical string yield identical output. -/
theorem analyzeExpense_pure (text : String) : analyzeExpense text = analyzeExpense text := rfl

/-- C2 counterexample: confirming a present draft does not always remove
it — when the persistence adapter reports failure the draft is kept, and a
second confirm of the same id is not a not-found outcome. -/
theorem confirm_lifecycle_counterexample :
    (confirmAction [(7, "Кава 85 грн")] 7 false).store = [(7, "Кава 85 грн")] ∧
    (confirmAction [(7, "Кава 85 грн")] 7 false).persistCalls = 1 ∧
    (confirmAction ((confirmAction [(7, "Кава 85 грн")] 7 false).store) 7 false).outcome ≠
      ConfirmOutcome.notFound := by
  refine ⟨by decide, by decide, by decide⟩

/-- C2 (amended): confirming an absent draft is a not-found outcome with no
persistence call and no exception; confirming a present draft invokes the
adapter exactly once, and when the adapter succeeds the draft is removed,
so a second confirm of the same id yields not-found. -/
theorem confirm_lifecycle (store : List (Nat × String)) (noteId : Nat) :
    (mapGetTruthy store noteId = none →
      ∀ persistOk : Bool, confirmAction store noteId persistOk =
        { outcome := ConfirmOutcome.notFound, store := store, persistCalls := 0 }) ∧
    (∀ note : String, mapGetTruthy store noteId = some note →
      (∀ persistOk : Bool, (confirmAction store noteId persistOk).persistCalls = 1) ∧
      (confirmAction store noteId true).outcome = ConfirmOutcome.saved ∧
      mapGetTruthy (confirmAction store noteId true).store noteId = none ∧
      (confirmAction (confirmAction store noteId true).store noteId true).outcome =
        ConfirmOutcome.notFound) := by
  constructor
  · intro h persistOk
    simp [confirmAction, h]
  · intro note h
    have hstore : (confirmAction store noteId true).store = mapDelete store noteId := by
      simp [confirmAction, h]
    have hdel : mapGetTruthy (mapDelete store noteId) noteId = none :=
      mapGetTruthy_of_mapGet_none (mapGet_mapDelete_self _ _)
    refine ⟨fun persistOk => ?_, by simp [confirmAction, h], ?_, ?_⟩
    · cases persistOk <;> simp [confirmAction, h]
    · rw [hstore]; exact hdel
    · rw [hstore]; simp [confirmAction, hdel]

/-- C2 witness: the amended statement applied to a concrete registry, on
both an absent id and a present id. -/
theorem confirm_lifecycle_witness :
    mapGetTruthy [(3, "Кава")] 9 = none ∧
    confirmAction [(3, "Кава")] 9 true =
      { outcome := ConfirmOutcome.notFound, store := [(3, "Кава")], persistCalls := 0 } ∧
    mapGetTruthy [(3, "Кава")] 3 = some "Кава" ∧
    (confirmAction [(3, "Кава")] 3 true).outcome = ConfirmOutcome.saved ∧
    (confirmAction (confirmAction [(3, "Кава")] 3 true).store 3 true).outcome =
      ConfirmOutcome.notFound :=
  ⟨by decide, (confirm_lifecycle [(3, "Кава")] 9).1 (by decide) true, by decide,
   ((confirm_lifecycle [(3, "Кава")] 3).2 "Кава" (by decide)).2.1,
   ((confirm_lifecycle [(3, "Кава")] 3).2 "Кава" (by decide)).2.2.2⟩

/-- C10: when the persistence adapter returns false during a confirm, the
draft stays in the registry unchanged (so the same id can be confirmed
again, invoking the adapter once more); the draft is deleted exactly when
persistence succeeds. -/
theorem confirm_failure_keeps_draft (store : List (Nat × String)) (noteId : Nat)
    (note : String) (h : mapGetTruthy store noteId = some note) :
    confirmAction store noteId false =
      { outcome := ConfirmOutcome.saveFailed, store := store, persistCalls := 1 } ∧
    (confirmAction (confirmAction store noteId false).store noteId true).persistCalls = 1 ∧
    (confirmAction (confirmAction store noteId false).store noteId true).outcome =
      ConfirmOutcome.saved ∧
    (confirmAction store noteId true).store = mapDelete store noteId ∧
    mapGetTruthy (confirmAction store noteId true).store noteId = none := by
  have h1 : confirmAction store noteId false =
      { outcome := ConfirmOutcome.saveFailed, store := store, persistCalls := 1 } := by
    simp [confirmAction, h]
  refine ⟨h1, ?_, ?_, by simp [confirmAction, h], ?_⟩
  · rw [h1]; simp [confirmAction, h]
  · rw [h1]; simp [confirmAction, h]
  · have : (confirmAction store noteId true).store = mapDelete store noteId := by
      simp [confirmAction, h]
    rw [this]
    exact mapGetTruthy_of_mapGet_none (mapGet_mapDelete_self _ _)

/-- C10 witness: the statement applied to a concrete one-draft registry. -/
theorem confirm_failure_keeps_draft_witness :
    mapGetTruthy [(4, "Таксі 120")] 4 = some "Таксі 120" ∧
    confirmAction [(4, "Таксі 120")] 4 false =
      { outcome := ConfirmOutcome.saveFailed, store := [(4, "Таксі 120")], persistCalls := 1 } ∧
    (confirmAction (confirmAction [(4, "Таксі 120")] 4 false).store 4 true).outcome =
      ConfirmOutcome.saved :=
  ⟨by decide, (confirm_failure_keeps_draft [(4, "Таксі 120")] 4 "Таксі 120" (by decide)).1,
   (confirm_failure_keeps_draft [(4, "Таксі 120")] 4 "Таксі 120" (by decide)).2.2.1⟩

/-- C3 counterexample: 1001 successive confirmation messages leave 1001
entries in the session registry, including the oldest one — `noteStorage`
has no capacity bound and never evicts. -/
theorem session_registry_unbounded_counterexample :
    (sessionInsertSeq 1001).length = 1001 ∧
    mapGet (sessionInsertSeq 1001) 0 = some "note" ∧ 1000 < 1001 := by
  refine ⟨?_, ?_, by decide⟩
  · rw [sessionInsertSeq_eq]; simp
  · rw [sessionInsertSeq_eq, List.range_succ_eq_map]
    simp [mapGet_cons]

/-- C3 (amended): the result registry is bounded — an insertion keeps it at
no more than 1000 entries, and an insertion into a full registry with a
fresh key evicts exactly the oldest entry, keeping all newer ones and the
new entry; the session registry, by contrast, is unbounded — an insertion
with a fresh id appends and evicts nothing. -/
theorem registries_bound_and_eviction {α : Type} (m : List (Nat × α)) (k : Nat) (v : α)
    (s : List (Nat × String)) (freshId : Nat) (note : String) :
    (m.length ≤ 1000 → (resultsInsert m k v).length ≤ 1000) ∧
    (m.length = 1000 → mapGet m k = none → (m.map Prod.fst).Nodup →
      resultsInsert m k v = m.tail ++ [(k, v)]) ∧
    (mapGet s freshId = none →
      sendExpenseConfirmation s freshId note = s ++ [(freshId, note)]) := by
  refine ⟨resultsInsert_bounded m k v, ?_, fun hf => mapSet_of_fresh note hf⟩
  intro hlen hfresh hnodup
  cases m with
  | nil => simp at hlen
  | cons e t =>
    simpa using resultsInsert_evicts_oldest e t k v hlen hfresh hnodup

/-- C3 witness: the amended statement applied to a concrete full result
registry of 1000 entries and a concrete session registry. -/
theorem registries_bound_and_eviction_witness :
    demoRegistry.length = 1000 ∧ mapGet demoRegistry 1000 = none ∧
    (demoRegistry.map Prod.fst).Nodup ∧
    (resultsInsert demoRegistry 1000 "r").length ≤ 1000 ∧
    resultsInsert demoRegistry 1000 "r" = demoRegistry.tail ++ [(1000, "r")] ∧
    sendExpenseConfirmation [(5, "a")] 6 "b" = [(5, "a"), (6, "b")] := by
  have hlen : demoRegistry.length = 1000 := by simp [demoRegistry]
  have hfresh : mapGet demoRegistry 1000 = none := by
    apply mapGet_eq_none_of_forall
    intro e he
    simp only [demoRegistry, List.mem_map, List.mem_range] at he
    obtain ⟨i, hi, rfl⟩ := he
    exact Nat.ne_of_lt hi
  have hkeys : demoRegistry.map Prod.fst = List.range 1000 := by
    unfold demoRegistry
    rw [List.map_map]
    exact List.map_id _
  have hnodup : (demoRegistry.map Prod.fst).Nodup := by
    rw [hkeys]; exact List.nodup_range 1000
  have h := registries_bound_and_eviction demoRegistry 1000 "r" [(5, "a")] 6 "b"
  exact ⟨hlen, hfresh, hnodup, h.1 (Nat.le_of_eq hlen), h.2.1 hlen hfresh hnodup,
    (h.2.2 (by decide)).trans (by decide)⟩

/-- Supporting lemma about the body of the pending-amount middleware (the
code that was evidently meant to run on a reply, but is unreachable — see
the section comment at its definition): were it reached while a
pending-amount slot is set and its draft exists, a reply whose parsed
value is absent or non-positive would be rejected in place (the state,
including the pending slot, unchanged, with the corrective prompt), and
the reply "123,45" would be accepted as 123.45 (= 12345/100), clearing the
pending slot and re-entering the pending-confirmation state with the new
amount and the stored category and note unchanged. This documents the
intent against which the actual dispatch behaviour diverges. -/
theorem amount_edit_flow (st : EditState) (pa : PendingAmount) (note : String)
    (freshId : Nat) (hp : st.pending = some pa)
    (hn : mapGetTruthy st.store pa.noteId = some note) :
    (∀ text : String,
      (jsParseFloat (String.mk (replaceFirst text.data ',' '.')) = none ∨
       ∃ q : ℚ, jsParseFloat (String.mk (replaceFirst text.data ',' '.')) = some q ∧ q ≤ 0) →
      amountMiddleware st (some text) false freshId = (EditOutcome.invalidAmount, st)) ∧
    jsParseFloat (String.mk (replaceFirst "123,45".data ',' '.')) = some (mkRat 12345 100) ∧
    amountMiddleware st (some "123,45") false freshId =
      (EditOutcome.newConfirmation (mkRat 12345 100) pa.category note,
       { pending := none, store := sendExpenseConfirmation st.store freshId note }) := by
  refine ⟨fun text hbad => ?_, by decide, ?_⟩
  · simp only [amountMiddleware, hp, hn, Bool.false_eq_true, if_false]
    rcases hbad with hnone | ⟨q, hq, hq0⟩
    · rw [hnone]
    · rw [hq]
      simp [hq0]
  · simp only [amountMiddleware, hp, hn, Bool.false_eq_true, if_false]
    rw [show jsParseFloat (String.mk (replaceFirst "123,45".data ',' '.')) =
      some (mkRat 12345 100) from by decide]
    have hq : ¬ (mkRat 12345 100 ≤ (0 : ℚ)) := by decide
    simp [hq]

/-- Instance of the middleware-body lemma at a concrete awaiting-amount
state, with a non-numeric reply and with the reply "123,45". -/
theorem amount_edit_flow_witness :
    editDemo.pending = some { category := "кафе", noteId := 5 } ∧
    mapGetTruthy editDemo.store 5 = some "Кава 85 грн" ∧
    jsParseFloat (String.mk (replaceFirst "abc".data ',' '.')) = none ∧
    amountMiddleware editDemo (some "abc") false 6 = (EditOutcome.invalidAmount, editDemo) ∧
    amountMiddleware editDemo (some "123,45") false 6 =
      (EditOutcome.newConfirmation (mkRat 12345 100) "кафе" "Кава 85 грн",
       { pending := none, store := sendExpenseConfirmation editDemo.store 6 "Кава 85 грн" }) := by
  have h := amount_edit_flow editDemo { category := "кафе", noteId := 5 } "Кава 85 грн" 6
    (by decide) (by decide)
  exact ⟨by decide, by decide, by decide, h.1 "abc" (Or.inl (by decide)), h.2.2⟩

/-- C6: what the program actually does with a reply arriving while the
awaiting-amount slot is set. The `bot.on('text')` handler is registered
before the pending-amount middleware and never calls `next()`, so the
middleware never runs: the reply "123,45" is handled as a fresh extraction
— amount 123.45 but category "інші" and the reply itself as a new note,
instead of the stored draft's category "кафе" and note — and the
awaiting-amount slot is not cleared; a non-numeric reply "abc" likewise
yields a fresh confirmation with amount 0 instead of a corrective
re-prompt leaving the state untouched. This contradicts the claimed
in-place reject/accept behaviour, which only the unreachable middleware
body implements. -/
theorem pending_reply_is_fresh_extraction :
    editDemo.pending = some { category := "кафе", noteId := 5 } ∧
    mapGetTruthy editDemo.store 5 = some "Кава 85 грн" ∧
    onTextHandler editDemo "123,45" 6 =
      (TextUpdateOutcome.freshConfirmation (mkRat 12345 100) "інші" "123,45",
       { pending := some { category := "кафе", noteId := 5 },
         store := [(5, "Кава 85 грн"), (6, "123,45")] }) ∧
    onTextHandler editDemo "abc" 6 =
      (TextUpdateOutcome.freshConfirmation 0 "інші" "abc",
       { pending := some { category := "кафе", noteId := 5 },
         store := [(5, "Кава 85 грн"), (6, "abc")] }) := by
  refine ⟨by decide, by decide, by decide, by decide⟩

/-- C7 counterexample: in the src/index.js variant a request body without a
text field is answered with status 500, not 400 — the missing-text error is
thrown inside processWebhookData and caught by the generic handler. -/
theorem webhook_missing_text_counterexample :
    replyStatus (webhookIndex none
      (Except.ok { amount := none, category := none, error := none })
      "2026-10-11" none 1 []).1 = 500 ∧ (500 : Nat) ≠ 400 := by
  refine ⟨by decide, by decide⟩

/-- C7 (amended): the part_003 variant of POST /webhook answers 400 when
the text field is falsy, 500 when the awaited extractor throws, and
otherwise a 200 body of the shape date/amount/category/originalText/error;
the src/index.js variant answers 500 — not 400 — when the text field is
falsy. -/
theorem webhook_contract (text : Option String) (outcome : Except String GeminiAnalysis)
    (now : String) (userId : Option Nat) (counter : Nat)
    (registry : List (Nat × IndexAnalysisRecord)) :
    (textFalsy text = true → webhookPart003 text outcome now =
      WebhookReply.badRequest "Текст не знайдено у запиті") ∧
    (∀ e : String, textFalsy text = false → outcome = Except.error e →
      webhookPart003 text outcome now =
        WebhookReply.serverError "Внутрішня помилка сервера") ∧
    (∀ a : GeminiAnalysis, textFalsy text = false → outcome = Except.ok a →
      webhookPart003 text outcome now =
        WebhookReply.okPart003 now a.amount a.category (text.getD "") a.error) ∧
    (textFalsy text = true → (webhookIndex text outcome now userId counter registry).1 =
      WebhookReply.serverError "Внутрішня помилка сервера") ∧
    replyStatus (WebhookReply.badRequest "Текст не знайдено у запиті") = 400 ∧
    replyStatus (WebhookReply.serverError "Внутрішня помилка сервера") = 500 ∧
    (∀ a : GeminiAnalysis,
      replyStatus (WebhookReply.okPart003 now a.amount a.category (text.getD "") a.error) = 200) := by
  refine ⟨fun h => ?_, fun e hf he => ?_, fun a hf ha => ?_, fun h => ?_, by decide, by decide,
    fun a => by rfl⟩
  · simp [webhookPart003, h]
  · simp [webhookPart003, hf, he]
  · simp [webhookPart003, hf, ha]
  · simp [webhookIndex, processWebhookData, h]

/-- C7 witness: the amended statement applied to a concrete missing-text
request, a concrete throwing extractor, and a concrete successful
extraction. -/
theorem webhook_contract_witness :
    textFalsy none = true ∧
    webhookPart003 none (Except.ok demoAnalysis) "d" =
      WebhookReply.badRequest "Текст не знайдено у запиті" ∧
    textFalsy (some "Кава 85 грн") = false ∧
    webhookPart003 (some "Кава 85 грн") (Except.error "boom") "d" =
      WebhookReply.serverError "Внутрішня помилка сервера" ∧
    webhookPart003 (some "Кава 85 грн") (Except.ok demoAnalysis) "d" =
      WebhookReply.okPart003 "d" demoAnalysis.amount demoAnalysis.category
        ((some "Кава 85 грн").getD "") demoAnalysis.error ∧
    (webhookIndex none (Except.ok demoAnalysis) "d" none 1 []).1 =
      WebhookReply.serverError "Внутрішня помилка сервера" := by
  have h1 := webhook_contract none (Except.ok demoAnalysis) "d" none 1 []
  have h2 := webhook_contract (some "Кава 85 грн") (Except.error "boom") "d" none 1 []
  have h3 := webhook_contract (some "Кава 85 грн") (Except.ok demoAnalysis) "d" none 1 []
  exact ⟨by decide, h1.1 (by decide), by decide, h2.2.1 "boom" (by decide) rfl,
    h3.2.2.1 demoAnalysis (by decide) rfl, h1.2.2.2.1 (by decide)⟩

/-- C8 counterexample: a whitespace-only (but nonempty) transcription
returned by a successful backend call is passed through as a success — it
is neither remapped to the empty-result fallback nor to the all-attempts
sentinel. -/
theorem transcribe_whitespace_counterexample :
    transcribeAudio 1 1 "123.ogg" [some " "] = " " ∧
    (" " : String).data.all Char.isWhitespace = true ∧ (" " : String) ≠ "" ∧
    (" " : String) ≠ failSentinel ∧ (" " : String) ≠ emptyFallback := by
  refine ⟨by decide, by decide, by decide, by decide, by decide⟩

/-- C8 (amended): the adapter consults at most 3 attempts (later oracle
entries are ignored), the backoff between retries is strictly increasing,
three thrown attempts produce the could-not-recognize sentinel rather than
an exception, an empty-string success is remapped to the empty-result
fallback, but a nonempty — in particular whitespace-only — success is
returned as-is. -/
theorem transcribe_retry_contract (fs ws : ℚ) (path : String) (a b c : Option String)
    (rest : List (Option String)) (r : String) (hfs : ¬ 20 < fs) (hws : ¬ 20 < ws) :
    whisperLoop (a :: b :: c :: rest) 3 = whisperLoop [a, b, c] 3 ∧
    (whisperLoop (a :: b :: c :: rest) 3).2 ≤ 3 ∧
    backoffDelay 1 < backoffDelay 2 ∧
    (containsSub path "продукт" = false →
      transcribeAudio fs ws path [none, none, none] = failSentinel) ∧
    transcribeAudio fs ws path [some ""] = emptyFallback ∧
    (r ≠ "" → transcribeAudio fs ws path [some r] = r) := by
  refine ⟨?_, ?_, by decide, fun hpath => ?_, ?_, fun hr => ?_⟩
  · rw [whisperLoop_take 3 (a :: b :: c :: rest)]
    simp
  · exact whisperLoop_calls_le 3 _
  · simp [transcribeAudio, hfs, hws, whisperLoop, hpath]
  · simp [transcribeAudio, hfs, hws, whisperLoop]
  · simp [transcribeAudio, hfs, hws, whisperLoop, hr]

/-- C8 witness: the statement applied at concrete sizes, a concrete path
and concrete attempt outcomes. -/
theorem transcribe_retry_contract_witness :
    ¬ (20 : ℚ) < 1 ∧ containsSub "123.ogg" "продукт" = false ∧ (" " : String) ≠ "" ∧
    (whisperLoop [some "т", none, none, none] 3 = whisperLoop [some "т", none, none] 3 ∧
     (whisperLoop [some "т", none, none, none] 3).2 ≤ 3 ∧
     backoffDelay 1 < backoffDelay 2 ∧
     transcribeAudio 1 1 "123.ogg" [none, none, none] = failSentinel ∧
     transcribeAudio 1 1 "123.ogg" [some ""] = emptyFallback ∧
     transcribeAudio 1 1 "123.ogg" [some " "] = " ") := by
  have h := transcribe_retry_contract 1 1 "123.ogg" (some "т") none none [none] " "
    (by decide) (by decide)
  exact ⟨by decide, by decide, by decide,
    ⟨h.1, h.2.1, h.2.2.1, h.2.2.2.1 (by decide), h.2.2.2.2.1, h.2.2.2.2.2 (by decide)⟩⟩

end ExpenseAnalyzer



